import Mathlib

/-!
Verification of the chunked CSV ingestion loader (`ingest_data.py` and
`zones_data.py`): a shallow embedding of the pandas chunked CSV reader and
the `to_sql` replace/append semantics, followed by theorems about the
loader's observable behaviour.
-/

set_option linter.unusedVariables false

/-- Declared column types, mirroring the pandas dtype strings used in the
source (`Int64`, `float64`, `string`) plus the `parse_dates` timestamp
treatment and plain inference for undeclared columns. -/
inductive Dtype where
  | int64
  | float64
  | text
  | datetime
  | inferred
deriving DecidableEq, Repr

/-- Lexical class of one raw CSV field, as the pandas parser sees it:
an integer literal, a decimal literal (with or without a fractional part),
free text, or an empty field (missing value). -/
inductive RawCell where
  | intLit (n : Int)
  | floatLit (n : Int) (hasFrac : Bool)
  | textLit (s : String)
  | empty
deriving DecidableEq, Repr

/-- The explicit per-column schema of `ingest_data.py` (the `DTYPE` dict). -/
def DTYPE : List (String × Dtype) :=
  [("VendorID", .int64),
   ("passenger_count", .int64),
   ("trip_distance", .float64),
   ("RatecodeID", .int64),
   ("store_and_fwd_flag", .text),
   ("PULocationID", .int64),
   ("DOLocationID", .int64),
   ("payment_type", .int64),
   ("fare_amount", .float64),
   ("extra", .float64),
   ("mta_tax", .float64),
   ("tip_amount", .float64),
   ("tolls_amount", .float64),
   ("improvement_surcharge", .float64),
   ("total_amount", .float64),
   ("congestion_surcharge", .float64)]

/-- The `PARSE_DATES` list of `ingest_data.py`. -/
def PARSE_DATES : List String :=
  ["tpep_pickup_datetime", "tpep_dropoff_datetime"]

/-- Association-list lookup for the dtype map. -/
def lookupDtype (m : List (String × Dtype)) (col : String) : Option Dtype :=
  match m with
  | [] => none
  | (c, d) :: rest => if c = col then some d else lookupDtype rest col

/-- Effective declared type of a column in the trip-data pipeline: columns in
`PARSE_DATES` are parsed as timestamps, columns in `DTYPE` get their declared
type, all others are inferred. -/
def dtypeOf (col : String) : Dtype :=
  if PARSE_DATES.contains col then .datetime
  else
    match lookupDtype DTYPE col with
    | some d => d
    | none => .inferred

/-- Whether a raw field's literal can be coerced to the declared type.
Numeric declarations reject free text; nullable `Int64` accepts empty
fields and integral literals; `float64` accepts any numeric literal and
empty fields; text, timestamp and inferred columns accept anything
(pandas leaves unparseable dates as-is rather than raising). -/
def coerceOk : Dtype → RawCell → Bool
  | .int64, .intLit _ => true
  | .int64, .floatLit _ hasFrac => !hasFrac
  | .int64, .empty => true
  | .int64, _ => false
  | .float64, .intLit _ => true
  | .float64, .floatLit _ _ => true
  | .float64, .empty => true
  | .float64, _ => false
  | .text, _ => true
  | .datetime, _ => true
  | .inferred, _ => true

/-- Whether a raw cell is a free-text (non-numeric) literal. -/
def RawCell.isText : RawCell → Bool
  | .textLit _ => true
  | _ => false

/-- Whether a declared type is numeric (integer or floating point). -/
def Dtype.isNumeric : Dtype → Bool
  | .int64 => true
  | .float64 => true
  | _ => false

/-- A CSV source: a header row of column names followed by data rows. -/
structure Csv where
  header : List String
  rows : List (List RawCell)
deriving DecidableEq, Repr

/-- A pandas `DataFrame` as produced by the chunked CSV reader: column
names, the auto-generated integer row index, and the data rows. -/
structure DataFrame where
  columns : List String
  index : List Nat
  rows : List (List RawCell)
deriving DecidableEq, Repr

/-- `df.head(0)`: same columns, no rows, empty index. -/
def dfHead0 (df : DataFrame) : DataFrame :=
  { columns := df.columns, index := [], rows := [] }

/-- A destination table in the database. -/
structure Table where
  columns : List String
  rows : List (List RawCell)
deriving DecidableEq, Repr

/-- The destination database: an association list from table name to table;
the most recent binding for a name shadows older ones. -/
abbrev Database := List (String × Table)

/-- Look up a table by name (first binding wins). -/
def dbLookup (db : Database) (name : String) : Option Table :=
  match db with
  | [] => none
  | (n, t) :: rest => if n = name then some t else dbLookup rest name

/-- Bind a name to a table, shadowing any previous binding. -/
def dbSet (db : Database) (name : String) (t : Table) : Database :=
  (name, t) :: db

/-- The `if_exists` modes of `DataFrame.to_sql` used by the source. -/
inductive IfExists where
  | replace
  | append
deriving DecidableEq, Repr

/-- Columns actually written by `to_sql` with the default `index=True`:
the unnamed `RangeIndex` is persisted as a leading column called
`index`, followed by the frame's own columns. -/
def writtenColumns (df : DataFrame) : List String :=
  "index" :: df.columns

/-- Rows actually written by `to_sql`: each data row is preceded by its
index value. -/
def writtenRows (df : DataFrame) : List (List RawCell) :=
  List.zipWith (fun i r => RawCell.intLit (Int.ofNat i) :: r) df.index df.rows

/-- `DataFrame.to_sql`: `replace` drops any table of that name and creates
it afresh from the frame; `append` creates the table if absent and
otherwise appends the frame's rows, failing (`none`) if the columns do
not line up with the existing table. -/
def toSql (df : DataFrame) (db : Database) (name : String) :
    IfExists → Option Database
  | .replace =>
      some (dbSet db name ⟨writtenColumns df, writtenRows df⟩)
  | .append =>
      match dbLookup db name with
      | none => some (dbSet db name ⟨writtenColumns df, writtenRows df⟩)
      | some t =>
          if t.columns = writtenColumns df then
            some (dbSet db name ⟨t.columns, t.rows ++ writtenRows df⟩)
          else none

/-- Fuel-indexed worker for chunking: split a list into pieces of `C`
elements (the final piece possibly shorter). The fuel only serves to make
the recursion structural; `l.length` fuel always suffices. -/
def chunksOfAux (C : Nat) : Nat → List α → List (List α)
  | _, [] => []
  | 0, l => [l]
  | fuel + 1, x :: xs =>
      (x :: xs.take (C - 1)) :: chunksOfAux C fuel (xs.drop (C - 1))

/-- Split a list into consecutive chunks of `C` elements, the final chunk
possibly shorter: the batching performed by `pd.read_csv(..., chunksize=C)`. -/
def chunksOf (C : Nat) (l : List α) : List (List α) :=
  chunksOfAux C l.length l

/-- Pair each chunk with the index value its first row receives: the
pandas `RangeIndex` continues across chunks, so chunk `k` starts where
chunk `k-1` stopped. -/
def withStarts (s : Nat) : List (List α) → List (Nat × List α)
  | [] => []
  | c :: cs => (s, c) :: withStarts (s + c.length) cs

/-- Rows paired with consecutive index values starting at `s`, each index
prepended as a cell (the shape in which `to_sql` persists a frame). -/
def indexedFrom (s : Nat) : List (List RawCell) → List (List RawCell)
  | [] => []
  | r :: rs => (RawCell.intLit (Int.ofNat s) :: r) :: indexedFrom (s + 1) rs

/-- Whether every field of a row coerces to its column's declared type. -/
def rowOk (header : List String) (row : List RawCell) : Bool :=
  (List.zip header row).all fun p => coerceOk (dtypeOf p.1) p.2

/-- Error classes of the run, following the spec's taxonomy plus the
python exceptions that fall outside it (`EmptyDataError` from a source
with no columns, the `ValueError` for a `parse_dates` column missing from
the header). -/
inductive IngestError where
  | invalidConfiguration
  | sourceUnavailable
  | emptyDataError
  | missingColumn
  | schemaMismatch
  | constraintViolation
deriving DecidableEq, Repr

/-- Outcome of a run: success or an error, each carrying the database
state at that point. -/
inductive RunOutcome where
  | ok (db : Database)
  | err (e : IngestError) (db : Database)
deriving DecidableEq, Repr

/-- Parse one pending chunk: dtype coercion is checked when the chunk is
materialised; on success the chunk's index is the `RangeIndex` fragment
`[start, start + length)`. -/
def parseChunk (header : List String) (start : Nat)
    (rows : List (List RawCell)) : Except IngestError DataFrame :=
  if rows.all (rowOk header) then
    .ok ⟨header, (List.range rows.length).map (· + start), rows⟩
  else .error .schemaMismatch

/-- The loop over the remaining chunks (`for df_chunk in tqdm(df_iter)`):
each chunk is parsed on demand and appended to the target table. -/
def appendLoop (header : List String) (target : String) :
    List (Nat × List (List RawCell)) → Database → RunOutcome
  | [], db => .ok db
  | (start, raw) :: rest, db =>
      match parseChunk header start raw with
      | .error e => .err e db
      | .ok df =>
          match toSql df db target .append with
          | none => .err .constraintViolation db
          | some db1 => appendLoop header target rest db1

/-- First pending chunk, and the remaining pending chunks, of the chunked
reader. pandas' `TextFileReader` returns, for a source whose data section
is empty, an empty `DataFrame` carrying the header's columns as the first
chunk instead of raising (gh-9535), so a first chunk always exists. -/
def firstAndRest (chunksize : Nat) (rows : List (List RawCell)) :
    (Nat × List (List RawCell)) × List (Nat × List (List RawCell)) :=
  match withStarts 0 (chunksOf chunksize rows) with
  | [] => ((0, []), [])
  | c :: cs => (c, cs)

/-- Shallow embedding of `ingest_data` (`ingest_data.py`, lines 43-86),
including the behaviour of the library calls it is built from:
`read_csv` validates `chunksize >= 1` before touching the source, then
opens the source (an unreachable source raises), parses the header
(no columns raises `EmptyDataError`, a `parse_dates` column missing from
the header raises), and chunks are materialised lazily; `next` for a
source with no data rows yields one empty first chunk rather than
raising; the first chunk defines the schema via
`head(0).to_sql(if_exists="replace")`, then every chunk (first included)
is appended. -/
def ingest_data (src : Option Csv) (chunksize : Nat) (target : String)
    (db : Database) : RunOutcome :=
  if chunksize < 1 then .err .invalidConfiguration db
  else
    match src with
    | none => .err .sourceUnavailable db
    | some csv =>
        if csv.header = [] then .err .emptyDataError db
        else if ¬ PARSE_DATES.all csv.header.contains then
          .err .missingColumn db
        else
          match parseChunk csv.header
              (firstAndRest chunksize csv.rows).1.1
              (firstAndRest chunksize csv.rows).1.2 with
          | .error e => .err e db
          | .ok first =>
              match toSql (dfHead0 first) db target .replace with
              | none => .err .constraintViolation db
              | some db1 =>
                  match toSql first db1 target .append with
                  | none => .err .constraintViolation db1
                  | some db2 =>
                      appendLoop csv.header target
                        (firstAndRest chunksize csv.rows).2 db2

/-- Shallow embedding of the zone loader (`zones_data.py`, `run`): the
whole CSV is read at once with inferred types (no coercion can fail, a
zero-row source just yields an empty frame), the table is created from
`head(0)` with replace semantics, then the full frame is appended. -/
def zones_run (src : Option Csv) (target : String) (db : Database) :
    RunOutcome :=
  match src with
  | none => .err .sourceUnavailable db
  | some csv =>
      if csv.header = [] then .err .emptyDataError db
      else
        let df : DataFrame := ⟨csv.header, List.range csv.rows.length, csv.rows⟩
        match toSql (dfHead0 df) db target .replace with
        | none => .err .constraintViolation db
        | some db1 =>
            match toSql df db1 target .append with
            | none => .err .constraintViolation db1
            | some db2 => .ok db2

/-- The index value carried by a written row (its leading cell), when that
cell is an integer literal. -/
def rowIndexVal (r : List RawCell) : Option Int :=
  match r.head? with
  | some (RawCell.intLit n) => some n
  | _ => none

/-- Final table under `target` after a run, when the run succeeded. -/
def finalTable (out : RunOutcome) (target : String) : Option Table :=
  match out with
  | .ok db => dbLookup db target
  | .err _ _ => none

/-! ### Chunking lemmas -/

lemma chunksOfAux_nil (C fuel : Nat) : chunksOfAux C fuel ([] : List α) = [] := by
  cases fuel <;> rfl

lemma chunksOfAux_eq (C : Nat) (n : Nat) :
    ∀ (l : List α), l.length ≤ n → ∀ fuel, l.length ≤ fuel →
      chunksOfAux C fuel l = chunksOf C l := by
  induction n with
  | zero =>
      intro l hl fuel hf
      have hnil : l = [] := List.length_eq_zero.mp (Nat.le_zero.mp hl)
      subst hnil
      simp [chunksOf, chunksOfAux_nil]
  | succ n ih =>
      intro l hl fuel hf
      cases l with
      | nil => simp [chunksOf, chunksOfAux_nil]
      | cons x xs =>
          cases fuel with
          | zero => simp at hf
          | succ f =>
              have hd : (xs.drop (C - 1)).length ≤ xs.length := by
                simp [List.length_drop]
              have hxs : xs.length ≤ n := by
                simp only [List.length_cons] at hl; omega
              have hfx : xs.length ≤ f := by
                simp only [List.length_cons] at hf; omega
              have hrhs : chunksOf C (x :: xs) =
                  (x :: xs.take (C - 1)) ::
                    chunksOfAux C xs.length (xs.drop (C - 1)) := rfl
              show (x :: xs.take (C - 1)) ::
                  chunksOfAux C f (xs.drop (C - 1)) = chunksOf C (x :: xs)
              rw [hrhs]
              congr 1
              rw [ih _ (le_trans hd hxs) f (le_trans hd hfx),
                ih _ (le_trans hd hxs) xs.length hd]

lemma chunksOf_cons (C : Nat) (x : α) (xs : List α) :
    chunksOf C (x :: xs) =
      (x :: xs.take (C - 1)) :: chunksOf C (xs.drop (C - 1)) := by
  have hd : (xs.drop (C - 1)).length ≤ xs.length := by
    simp [List.length_drop]
  have hrhs : chunksOf C (x :: xs) =
      (x :: xs.take (C - 1)) :: chunksOfAux C xs.length (xs.drop (C - 1)) := rfl
  rw [hrhs, chunksOfAux_eq C xs.length _ hd xs.length hd]

lemma chunksOf_nil (C : Nat) : chunksOf C ([] : List α) = [] := rfl

/-- Induction along the recursion structure of `chunksOf`: a list property
holds everywhere once it holds for `[]` and is preserved by re-attaching a
chunk's worth of elements. -/
lemma chunkInduction {α : Type _} (C : Nat) (motive : List α → Prop)
    (nil : motive [])
    (cons : ∀ x (xs : List α), motive (xs.drop (C - 1)) → motive (x :: xs)) :
    ∀ l, motive l := by
  have key : ∀ (n : Nat) (l : List α), l.length ≤ n → motive l := by
    intro n
    induction n with
    | zero =>
        intro l hl
        have hnil : l = [] := List.length_eq_zero.mp (Nat.le_zero.mp hl)
        subst hnil; exact nil
    | succ n ih =>
        intro l hl
        cases l with
        | nil => exact nil
        | cons x xs =>
            refine cons x xs (ih _ ?_)
            have hd : (xs.drop (C - 1)).length ≤ xs.length := by
              simp [List.length_drop]
            simp only [List.length_cons] at hl
            omega
  exact fun l => key l.length l le_rfl

lemma chunksOf_flatten (C : Nat) (l : List α) : (chunksOf C l).flatten = l := by
  refine chunkInduction C (fun l => (chunksOf C l).flatten = l) ?_ ?_ l
  · simp [chunksOf_nil]
  · intro x xs ih
    rw [chunksOf_cons]
    simp [ih, List.take_append_drop]

lemma chunksOf_sum (C : Nat) (l : List α) :
    ((chunksOf C l).map List.length).sum = l.length := by
  rw [← List.length_flatten, chunksOf_flatten]

lemma chunksOf_eq_nil_iff (C : Nat) (l : List α) :
    chunksOf C l = [] ↔ l = [] := by
  cases l with
  | nil => simp [chunksOf_nil]
  | cons x xs => rw [chunksOf_cons]; simp

lemma chunksOf_length (C : Nat) (hC : 1 ≤ C) (l : List α) :
    (chunksOf C l).length = (l.length + C - 1) / C := by
  refine chunkInduction C
    (fun l => (chunksOf C l).length = (l.length + C - 1) / C) ?_ ?_ l
  · simp only [chunksOf_nil, List.length_nil]
    rw [Nat.div_eq_of_lt (by omega)]
  · intro x xs ih
    rw [chunksOf_cons]
    simp only [List.length_cons, ih, List.length_drop]
    rcases Nat.lt_or_ge xs.length (C - 1) with h | h
    · have e1 : xs.length - (C - 1) + C - 1 = C - 1 := by omega
      have e2 : xs.length + 1 + C - 1 = xs.length + C := by omega
      rw [e1, e2, Nat.div_eq_of_lt (by omega),
        Nat.add_div_right _ (by omega : 0 < C),
        Nat.div_eq_of_lt (by omega)]
    · have e1 : xs.length - (C - 1) + C - 1 = xs.length := by omega
      have e2 : xs.length + 1 + C - 1 = xs.length + C := by omega
      rw [e1, e2, Nat.add_div_right _ (by omega : 0 < C)]

lemma chunksOf_mem_length (C : Nat) (hC : 1 ≤ C) (l : List α) :
    ∀ c ∈ chunksOf C l, 1 ≤ c.length ∧ c.length ≤ C := by
  refine chunkInduction C
    (fun l => ∀ c ∈ chunksOf C l, 1 ≤ c.length ∧ c.length ≤ C) ?_ ?_ l
  · simp [chunksOf_nil]
  · intro x xs ih c hc
    rw [chunksOf_cons] at hc
    rcases List.mem_cons.mp hc with rfl | hc
    · simp only [List.length_cons, List.length_take]
      omega
    · exact ih c hc

lemma chunksOf_full (C : Nat) (hC : 1 ≤ C) (l : List α) :
    ∀ i, i + 1 < (chunksOf C l).length →
      ((chunksOf C l).getD i []).length = C := by
  refine chunkInduction C
    (fun l => ∀ i, i + 1 < (chunksOf C l).length →
      ((chunksOf C l).getD i []).length = C) ?_ ?_ l
  · simp [chunksOf_nil]
  · intro x xs ih i hi
    rw [chunksOf_cons] at hi ⊢
    cases i with
    | zero =>
        simp only [List.length_cons] at hi
        have hne : chunksOf C (xs.drop (C - 1)) ≠ [] := by
          intro h; rw [h] at hi; simp at hi
        have hxs : C - 1 < xs.length := by
          have := (chunksOf_eq_nil_iff C (xs.drop (C - 1))).not.mp hne
          have hlen : xs.length - (C - 1) ≠ 0 := by
            intro h
            exact this (List.eq_nil_of_length_eq_zero (by simp [List.length_drop, h]))
          omega
        simp only [List.getD_cons_zero, List.length_cons, List.length_take]
        omega
    | succ j =>
        simp only [List.getD_cons_succ]
        apply ih
        simp only [List.length_cons] at hi
        omega

lemma chunksOf_take_flatten (C : Nat) (hC : 1 ≤ C) (l : List α) :
    ∀ k, ((chunksOf C l).take k).flatten = l.take (k * C) := by
  refine chunkInduction C
    (fun l => ∀ k, ((chunksOf C l).take k).flatten = l.take (k * C)) ?_ ?_ l
  · simp [chunksOf_nil]
  · intro x xs ih k
    obtain ⟨c, rfl⟩ : ∃ c, C = c + 1 := ⟨C - 1, by omega⟩
    simp only [Nat.add_sub_cancel] at ih ⊢
    cases k with
    | zero => simp
    | succ j =>
        rw [chunksOf_cons]
        simp only [Nat.add_sub_cancel, List.take_succ_cons, List.flatten_cons,
          ih j]
        have hmul : (j + 1) * (c + 1) = (c + 1) + j * (c + 1) := by ring
        rw [hmul, List.take_add]
        simp [List.take_succ_cons, List.drop_succ_cons]

lemma chunksOf_one (l : List α) : chunksOf 1 l = l.map (fun a => [a]) := by
  refine chunkInduction 1 (fun l => chunksOf 1 l = l.map fun a => [a]) ?_ ?_ l
  · simp [chunksOf_nil]
  · intro x xs ih
    rw [chunksOf_cons]
    simpa using ih

/-! ### Index bookkeeping -/

lemma indexedFrom_length (s : Nat) (rows : List (List RawCell)) :
    (indexedFrom s rows).length = rows.length := by
  induction rows generalizing s with
  | nil => rfl
  | cons r rs ih => simp [indexedFrom, ih]

lemma indexedFrom_append (s : Nat) (a b : List (List RawCell)) :
    indexedFrom s (a ++ b) =
      indexedFrom s a ++ indexedFrom (s + a.length) b := by
  induction a generalizing s with
  | nil => simp [indexedFrom]
  | cons r rs ih =>
      simp only [List.cons_append, indexedFrom, List.length_cons, List.append_eq]
      rw [ih (s + 1)]
      have h : s + 1 + rs.length = s + (rs.length + 1) := by omega
      rw [h]

lemma indexedFrom_map_tail (s : Nat) (rows : List (List RawCell)) :
    (indexedFrom s rows).map List.tail = rows := by
  induction rows generalizing s with
  | nil => rfl
  | cons r rs ih => simp [indexedFrom, ih]

lemma indexedFrom_filterMap (s : Nat) (rows : List (List RawCell)) :
    (indexedFrom s rows).filterMap rowIndexVal =
      (List.range rows.length).map (fun i => Int.ofNat (s + i)) := by
  induction rows generalizing s with
  | nil => rfl
  | cons r rs ih =>
      simp only [indexedFrom, List.filterMap_cons, rowIndexVal, List.head?_cons,
        List.length_cons, List.range_succ_eq_map, List.map_cons, List.map_map,
        Nat.add_zero, ih (s + 1)]
      congr 1
      apply List.map_congr_left
      intro i hi
      simp only [Function.comp_apply]
      congr 1
      omega

lemma writtenRows_range (s : Nat) (rows : List (List RawCell)) :
    List.zipWith (fun i r => RawCell.intLit (Int.ofNat i) :: r)
      ((List.range rows.length).map (· + s)) rows = indexedFrom s rows := by
  induction rows generalizing s with
  | nil => rfl
  | cons r rs ih =>
      simp only [List.length_cons, List.range_succ_eq_map, List.map_cons,
        Nat.zero_add, List.map_map, List.zipWith_cons_cons, indexedFrom]
      congr 1
      rw [← ih (s + 1)]
      congr 1
      apply List.map_congr_left
      intro i hi
      simp only [Function.comp_apply]
      omega

lemma writtenRows_range0 (rows : List (List RawCell)) :
    List.zipWith (fun i r => RawCell.intLit (Int.ofNat i) :: r)
      (List.range rows.length) rows = indexedFrom 0 rows := by
  have h := writtenRows_range 0 rows
  simpa using h

/-! ### Start offsets of chunks -/

lemma withStarts_mem (s : Nat) (cs : List (List α)) :
    ∀ p ∈ withStarts s cs, p.2 ∈ cs := by
  induction cs generalizing s with
  | nil => simp [withStarts]
  | cons c rest ih =>
      intro p hp
      simp only [withStarts, List.mem_cons] at hp
      rcases hp with rfl | hp
      · simp
      · exact List.mem_cons_of_mem _ (ih (s + c.length) p hp)

lemma withStarts_append (s : Nat) (a b : List (List α)) :
    withStarts s (a ++ b) =
      withStarts s a ++ withStarts (s + (a.map List.length).sum) b := by
  induction a generalizing s with
  | nil => simp [withStarts]
  | cons c rest ih =>
      simp only [List.cons_append, withStarts, List.map_cons, List.sum_cons,
        List.append_eq]
      rw [ih (s + c.length)]
      have h : s + c.length + (rest.map List.length).sum =
          s + (c.length + (rest.map List.length).sum) := by omega
      rw [h]

lemma withStarts_indexed_flatten (s : Nat) (cs : List (List (List RawCell))) :
    ((withStarts s cs).map (fun p => indexedFrom p.1 p.2)).flatten =
      indexedFrom s cs.flatten := by
  induction cs generalizing s with
  | nil => rfl
  | cons c rest ih =>
      simp only [withStarts, List.map_cons, List.flatten_cons, ih (s + c.length)]
      rw [indexedFrom_append]

lemma firstAndRest_nil (C : Nat) :
    firstAndRest C [] = ((0, []), []) := rfl

lemma firstAndRest_cons (C : Nat) (rows : List (List RawCell))
    (c0 : List (List RawCell)) (cs : List (List (List RawCell)))
    (h : chunksOf C rows = c0 :: cs) :
    firstAndRest C rows = ((0, c0), withStarts c0.length cs) := by
  simp [firstAndRest, h, withStarts]

/-! ### Database bookkeeping -/

lemma dbLookup_dbSet_self (db : Database) (name : String) (t : Table) :
    dbLookup (dbSet db name t) name = some t := by
  simp [dbLookup, dbSet]

/-! ### Coercion failure -/

lemma rowOk_false_of_text (header : List String) (row : List RawCell)
    (p : String × RawCell) (hp : p ∈ List.zip header row)
    (hnum : (dtypeOf p.1).isNumeric = true) (htxt : p.2.isText = true) :
    rowOk header row = false := by
  cases hall : rowOk header row with
  | false => rfl
  | true =>
      exfalso
      rw [rowOk, List.all_eq_true] at hall
      have hcell := hall p hp
      cases hc : p.2 <;> simp [RawCell.isText, hc] at htxt
      cases hd : dtypeOf p.1 <;> simp [Dtype.isNumeric, hd] at hnum <;>
        rw [hd, hc] at hcell <;> simp [coerceOk] at hcell

lemma chunk_all_false (header : List String) (rows : List (List RawCell))
    (r : List RawCell) (hr : r ∈ rows) (h : rowOk header r = false) :
    rows.all (rowOk header) = false := by
  cases hall : rows.all (rowOk header) with
  | false => rfl
  | true => exact absurd (List.all_eq_true.mp hall r hr) (by simp [h])

/-! ### The append loop -/

lemma appendLoop_spec (header : List String) (target : String) :
    ∀ (cs : List (Nat × List (List RawCell))) (db : Database) (t : Table),
      dbLookup db target = some t →
      t.columns = "index" :: header →
      (∀ p ∈ cs, ∀ r ∈ p.2, rowOk header r = true) →
      ∃ db', appendLoop header target cs db = .ok db' ∧
        dbLookup db' target =
          some ⟨"index" :: header,
            t.rows ++ (cs.map fun p => indexedFrom p.1 p.2).flatten⟩ := by
  intro cs
  induction cs with
  | nil =>
      intro db t ht hcols hok
      refine ⟨db, rfl, ?_⟩
      rw [ht]
      obtain ⟨tc, tr⟩ := t
      simp only at hcols
      simp [hcols]
  | cons p rest ih =>
      obtain ⟨start, raw⟩ := p
      intro db t ht hcols hok
      have hrows : raw.all (rowOk header) = true := by
        rw [List.all_eq_true]
        intro r hr
        exact hok (start, raw) (by simp) r hr
      have hp : parseChunk header start raw =
          .ok ⟨header, (List.range raw.length).map (· + start), raw⟩ := by
        simp [parseChunk, hrows]
      have hw : writtenRows ⟨header, (List.range raw.length).map (· + start), raw⟩ =
          indexedFrom start raw := writtenRows_range start raw
      have happ : toSql ⟨header, (List.range raw.length).map (· + start), raw⟩
          db target .append =
          some (dbSet db target ⟨t.columns, t.rows ++ indexedFrom start raw⟩) := by
        simp [toSql, ht, writtenColumns, hcols, hw]
      obtain ⟨db', hrun, hlook⟩ :=
        ih (dbSet db target ⟨t.columns, t.rows ++ indexedFrom start raw⟩)
          ⟨t.columns, t.rows ++ indexedFrom start raw⟩
          (dbLookup_dbSet_self _ _ _) hcols
          (fun q hq r hr => hok q (by simp [hq]) r hr)
      refine ⟨db', ?_, ?_⟩
      · simp only [appendLoop, hp, happ]
        exact hrun
      · rw [hlook]
        simp [List.append_assoc]

lemma appendLoop_err (header : List String) (target : String) :
    ∀ (pre : List (Nat × List (List RawCell)))
      (bad : Nat × List (List RawCell))
      (post : List (Nat × List (List RawCell))) (db : Database) (t : Table),
      dbLookup db target = some t →
      t.columns = "index" :: header →
      (∀ p ∈ pre, ∀ r ∈ p.2, rowOk header r = true) →
      bad.2.all (rowOk header) = false →
      ∃ db', appendLoop header target (pre ++ bad :: post) db =
          .err .schemaMismatch db' ∧
        dbLookup db' target =
          some ⟨"index" :: header,
            t.rows ++ (pre.map fun p => indexedFrom p.1 p.2).flatten⟩ := by
  intro pre
  induction pre with
  | nil =>
      intro bad post db t ht hcols hok hbad
      obtain ⟨bs, braw⟩ := bad
      refine ⟨db, ?_, ?_⟩
      · simp only at hbad
        simp [appendLoop, parseChunk, hbad]
      · rw [ht]
        obtain ⟨tc, tr⟩ := t
        simp only at hcols
        simp [hcols]
  | cons p rest ih =>
      obtain ⟨start, raw⟩ := p
      intro bad post db t ht hcols hok hbad
      have hrows : raw.all (rowOk header) = true := by
        rw [List.all_eq_true]
        intro r hr
        exact hok (start, raw) (by simp) r hr
      have hp : parseChunk header start raw =
          .ok ⟨header, (List.range raw.length).map (· + start), raw⟩ := by
        simp [parseChunk, hrows]
      have hw : writtenRows ⟨header, (List.range raw.length).map (· + start), raw⟩ =
          indexedFrom start raw := writtenRows_range start raw
      have happ : toSql ⟨header, (List.range raw.length).map (· + start), raw⟩
          db target .append =
          some (dbSet db target ⟨t.columns, t.rows ++ indexedFrom start raw⟩) := by
        simp [toSql, ht, writtenColumns, hcols, hw]
      obtain ⟨db', hrun, hlook⟩ :=
        ih bad post (dbSet db target ⟨t.columns, t.rows ++ indexedFrom start raw⟩)
          ⟨t.columns, t.rows ++ indexedFrom start raw⟩
          (dbLookup_dbSet_self _ _ _) hcols
          (fun q hq r hr => hok q (by simp [hq]) r hr) hbad
      refine ⟨db', ?_, ?_⟩
      · simp only [List.cons_append, appendLoop, hp, happ]
        exact hrun
      · rw [hlook]
        simp [List.append_assoc]

/-! ### Whole-run lemmas -/

lemma ingest_ok (csv : Csv) (C : Nat) (target : String) (db : Database)
    (hC : 1 ≤ C) (hh : csv.header ≠ [])
    (hpd : PARSE_DATES.all csv.header.contains = true)
    (hr : csv.rows ≠ [])
    (hok : ∀ r ∈ csv.rows, rowOk csv.header r = true) :
    ∃ db', ingest_data (some csv) C target db = .ok db' ∧
      dbLookup db' target =
        some ⟨"index" :: csv.header, indexedFrom 0 csv.rows⟩ := by
  obtain ⟨c0, cs, hch⟩ : ∃ c0 cs, chunksOf C csv.rows = c0 :: cs := by
    cases hcc : chunksOf C csv.rows with
    | nil => exact absurd ((chunksOf_eq_nil_iff C csv.rows).mp hcc) hr
    | cons c0 cs => exact ⟨c0, cs, rfl⟩
  have hsub : ∀ c ∈ chunksOf C csv.rows, ∀ r ∈ c, rowOk csv.header r = true := by
    intro c hc r hrc
    apply hok
    rw [← chunksOf_flatten C csv.rows]
    exact List.mem_flatten.mpr ⟨c, hc, hrc⟩
  have h0all : c0.all (rowOk csv.header) = true := by
    rw [List.all_eq_true]
    exact hsub c0 (by rw [hch]; simp)
  have hp : parseChunk csv.header 0 c0 =
      .ok ⟨csv.header, (List.range c0.length).map (· + 0), c0⟩ := by
    simp [parseChunk, h0all]
  have hz : List.zipWith (fun i r => RawCell.intLit (Int.ofNat i) :: r)
      ((List.range c0.length).map (· + 0)) c0 = indexedFrom 0 c0 :=
    writtenRows_range 0 c0
  have hne : ¬ (C < 1) := by omega
  have hpd2 : ¬ ¬ (PARSE_DATES.all csv.header.contains = true) := fun h => h hpd
  have hstep : ingest_data (some csv) C target db =
      appendLoop csv.header target (withStarts c0.length cs)
        (dbSet (dbSet db target ⟨"index" :: csv.header, []⟩) target
          ⟨"index" :: csv.header, indexedFrom 0 c0⟩) := by
    simp only [ingest_data, if_neg hne, if_neg hh, if_neg hpd2,
      firstAndRest_cons C csv.rows c0 cs hch,
      hp, dfHead0, toSql, writtenColumns, writtenRows,
      List.zipWith_nil_left, dbLookup_dbSet_self, List.nil_append,
      eq_self_iff_true, if_true, hz]
  obtain ⟨db', hrun, hlook⟩ :=
    appendLoop_spec csv.header target (withStarts c0.length cs)
      (dbSet (dbSet db target ⟨"index" :: csv.header, []⟩) target
        ⟨"index" :: csv.header, indexedFrom 0 c0⟩)
      ⟨"index" :: csv.header, indexedFrom 0 c0⟩
      (dbLookup_dbSet_self _ _ _) rfl
      (fun p hp' r hr' =>
        hsub p.2
          (by rw [hch]; exact List.mem_cons_of_mem _ (withStarts_mem c0.length cs p hp'))
          r hr')
  have hjoin : csv.rows = c0 ++ cs.flatten := by
    conv_lhs => rw [← chunksOf_flatten C csv.rows, hch]
    rfl
  have hjoin2 : indexedFrom 0 csv.rows =
      indexedFrom 0 c0 ++ indexedFrom c0.length cs.flatten := by
    rw [hjoin, indexedFrom_append]
    simp
  refine ⟨db', by rw [hstep]; exact hrun, ?_⟩
  rw [hlook, withStarts_indexed_flatten, hjoin2]

lemma ingest_err_schema (csv : Csv) (C : Nat) (target : String) (db : Database)
    (hC : 1 ≤ C) (hh : csv.header ≠ [])
    (hpd : PARSE_DATES.all csv.header.contains = true)
    (pre : List (List (List RawCell))) (bad : List (List RawCell))
    (post : List (List (List RawCell)))
    (hch : chunksOf C csv.rows = pre ++ bad :: post)
    (hpre : ∀ c ∈ pre, ∀ r ∈ c, rowOk csv.header r = true)
    (hbad : bad.all (rowOk csv.header) = false) :
    ∃ db', ingest_data (some csv) C target db = .err .schemaMismatch db' ∧
      (pre = [] → db' = db) ∧
      (pre ≠ [] → dbLookup db' target =
        some ⟨"index" :: csv.header,
          indexedFrom 0 (csv.rows.take (pre.length * C))⟩) := by
  have hne : ¬ (C < 1) := by omega
  have hpd2 : ¬ ¬ (PARSE_DATES.all csv.header.contains = true) := fun h => h hpd
  cases pre with
  | nil =>
      simp only [List.nil_append] at hch
      have hpfail : parseChunk csv.header 0 bad = .error .schemaMismatch := by
        simp [parseChunk, hbad]
      refine ⟨db, ?_, fun _ => rfl, fun h => absurd rfl h⟩
      simp only [ingest_data, if_neg hne, if_neg hh, if_neg hpd2,
        firstAndRest_cons C csv.rows bad post hch, hpfail]
  | cons c0 pre' =>
      simp only [List.cons_append] at hch
      have h0all : c0.all (rowOk csv.header) = true := by
        rw [List.all_eq_true]
        exact hpre c0 (by simp)
      have hp : parseChunk csv.header 0 c0 =
          .ok ⟨csv.header, (List.range c0.length).map (· + 0), c0⟩ := by
        simp [parseChunk, h0all]
      have hz : List.zipWith (fun i r => RawCell.intLit (Int.ofNat i) :: r)
          ((List.range c0.length).map (· + 0)) c0 = indexedFrom 0 c0 :=
        writtenRows_range 0 c0
      have hstep : ingest_data (some csv) C target db =
          appendLoop csv.header target (withStarts c0.length (pre' ++ bad :: post))
            (dbSet (dbSet db target ⟨"index" :: csv.header, []⟩) target
              ⟨"index" :: csv.header, indexedFrom 0 c0⟩) := by
        simp only [ingest_data, if_neg hne, if_neg hh, if_neg hpd2,
          firstAndRest_cons C csv.rows c0 (pre' ++ bad :: post) hch,
          hp, dfHead0, toSql, writtenColumns, writtenRows,
          List.zipWith_nil_left, dbLookup_dbSet_self, List.nil_append,
          eq_self_iff_true, if_true, hz]
      rw [withStarts_append c0.length pre' (bad :: post)] at hstep
      simp only [withStarts] at hstep
      obtain ⟨db', hrun, hlook⟩ :=
        appendLoop_err csv.header target (withStarts c0.length pre')
          (c0.length + (pre'.map List.length).sum, bad)
          (withStarts (c0.length + (pre'.map List.length).sum + bad.length) post)
          (dbSet (dbSet db target ⟨"index" :: csv.header, []⟩) target
            ⟨"index" :: csv.header, indexedFrom 0 c0⟩)
          ⟨"index" :: csv.header, indexedFrom 0 c0⟩
          (dbLookup_dbSet_self _ _ _) rfl
          (fun p hp' r hr' =>
            hpre p.2 (List.mem_cons_of_mem _ (withStarts_mem c0.length pre' p hp')) r hr')
          hbad
      refine ⟨db', by rw [hstep]; exact hrun, fun h => absurd h (by simp), fun _ => ?_⟩
      rw [hlook, withStarts_indexed_flatten]
      have htake : csv.rows.take ((c0 :: pre').length * C) = c0 ++ pre'.flatten := by
        rw [← chunksOf_take_flatten C hC csv.rows (c0 :: pre').length, hch,
          ← List.cons_append, List.take_left]
        rfl
      rw [htake, indexedFrom_append]
      simp

lemma zones_ok (csv : Csv) (target : String) (db : Database)
    (hh : csv.header ≠ []) :
    zones_run (some csv) target db =
      .ok (dbSet (dbSet db target ⟨"index" :: csv.header, []⟩) target
        ⟨"index" :: csv.header, indexedFrom 0 csv.rows⟩) := by
  have hz := writtenRows_range0 csv.rows
  simp only [zones_run, if_neg hh, dfHead0, toSql, writtenColumns, writtenRows,
    List.zipWith_nil_left, dbLookup_dbSet_self, List.nil_append,
    eq_self_iff_true, if_true, hz]

/-! ### The claims -/

/-- C1: for a source of R ≥ 1 rows and a configured batch size C ≥ 1 the
chunked reader used by `ingest_data` produces exactly ceil(R / C) batches,
every batch except possibly the last has exactly C rows, and the batch
sizes sum to R; in particular 250000 rows with chunksize 100000 give
batches of 100000, 100000 and 50000 rows, and a successful run ends with a
table of exactly R rows. -/
theorem C1_chunk_counts (rows : List (List RawCell)) (C : Nat)
    (hC : 1 ≤ C) (hR : 1 ≤ rows.length) :
    (chunksOf C rows).length = (rows.length + C - 1) / C ∧
    (∀ i, i + 1 < (chunksOf C rows).length →
      ((chunksOf C rows).getD i []).length = C) ∧
    ((chunksOf C rows).map List.length).sum = rows.length ∧
    (rows.length = 250000 → C = 100000 →
      (chunksOf C rows).map List.length = [100000, 100000, 50000]) ∧
    (∀ (csv : Csv) (target : String) (db : Database),
      csv.rows = rows → csv.header ≠ [] →
      PARSE_DATES.all csv.header.contains = true →
      (∀ r ∈ rows, rowOk csv.header r = true) →
      ∃ db' t, ingest_data (some csv) C target db = .ok db' ∧
        dbLookup db' target = some t ∧ t.rows.length = rows.length) := by
  refine ⟨chunksOf_length C hC rows, chunksOf_full C hC rows,
    chunksOf_sum C rows, ?_, ?_⟩
  · intro h250 h100
    have hlen3 : (chunksOf C rows).length = 3 := by
      rw [chunksOf_length C hC, h250, h100]
    obtain ⟨x, y, z, hxyz⟩ := List.length_eq_three.mp hlen3
    have h0 := chunksOf_full C hC rows 0 (by rw [hxyz]; norm_num)
    have h1 := chunksOf_full C hC rows 1 (by rw [hxyz]; norm_num)
    have hs := chunksOf_sum C rows
    rw [hxyz] at h0 h1 hs
    rw [h250] at hs
    simp only [List.getD_cons_zero, List.getD_cons_succ] at h0 h1
    simp only [List.map_cons, List.map_nil, List.sum_cons, List.sum_nil] at hs
    have hzl : z.length = 50000 := by omega
    rw [hxyz]
    simp [h0, h1, hzl, h100]
  · intro csv target db hrows hh hpd hok
    subst hrows
    have hr : csv.rows ≠ [] := by
      intro h
      rw [h] at hR
      simp at hR
    obtain ⟨db', h1, h2⟩ := ingest_ok csv C target db hC hh hpd hr hok
    exact ⟨db', _, h1, h2, indexedFrom_length 0 csv.rows⟩

/-- C2 counterexample: the claim that the destination table's columns equal
exactly the first batch's columns fails — after this concrete run the table
has an extra leading auto-generated `index` column. -/
theorem C2_counterexample :
    (finalTable
        (ingest_data
          (some ⟨["tpep_pickup_datetime", "tpep_dropoff_datetime"],
            [[RawCell.empty, RawCell.empty]]⟩) 1 "t" [])
        "t").map Table.columns =
      some ["index", "tpep_pickup_datetime", "tpep_dropoff_datetime"] ∧
    (["index", "tpep_pickup_datetime", "tpep_dropoff_datetime"] : List String) ≠
      ["tpep_pickup_datetime", "tpep_dropoff_datetime"] := by
  constructor
  · rfl
  · decide

/-- C2 (amended): after a full successful run the destination table's
columns are the first batch's columns in the same order, preceded by one
auto-generated `index` column (and likewise for the zone loader). -/
theorem C2_amended_columns (csv : Csv) (C : Nat) (target : String)
    (db : Database) (hC : 1 ≤ C) (hh : csv.header ≠ [])
    (hpd : PARSE_DATES.all csv.header.contains = true) (hr : csv.rows ≠ [])
    (hok : ∀ r ∈ csv.rows, rowOk csv.header r = true) :
    (∃ db' t, ingest_data (some csv) C target db = .ok db' ∧
      dbLookup db' target = some t ∧
      t.columns = "index" :: csv.header) ∧
    (∃ db1 t1, zones_run (some csv) target db = .ok db1 ∧
      dbLookup db1 target = some t1 ∧
      t1.columns = "index" :: csv.header) := by
  constructor
  · obtain ⟨db', h1, h2⟩ := ingest_ok csv C target db hC hh hpd hr hok
    exact ⟨db', _, h1, h2, rfl⟩
  · exact ⟨_, _, zones_ok csv target db hh, dbLookup_dbSet_self _ _ _, rfl⟩

/-- C3: running the loader twice against the same table name and source
leaves the table with exactly one run's worth of rows: the second run's
replace step discards the pre-existing table, so the final table equals
the first run's table (R rows, not 2R) — for both loaders. -/
theorem C3_rerun_replace (csv : Csv) (C : Nat) (target : String)
    (db : Database) (hC : 1 ≤ C) (hh : csv.header ≠ [])
    (hpd : PARSE_DATES.all csv.header.contains = true) (hr : csv.rows ≠ [])
    (hok : ∀ r ∈ csv.rows, rowOk csv.header r = true) :
    (∃ db1 db2, ingest_data (some csv) C target db = .ok db1 ∧
      ingest_data (some csv) C target db1 = .ok db2 ∧
      dbLookup db2 target = dbLookup db1 target ∧
      (dbLookup db2 target).map (fun t => t.rows.length) =
        some csv.rows.length) ∧
    (∃ db1 db2, zones_run (some csv) target db = .ok db1 ∧
      zones_run (some csv) target db1 = .ok db2 ∧
      dbLookup db2 target = dbLookup db1 target ∧
      (dbLookup db2 target).map (fun t => t.rows.length) =
        some csv.rows.length) := by
  constructor
  · obtain ⟨db1, h1, hl1⟩ := ingest_ok csv C target db hC hh hpd hr hok
    obtain ⟨db2, h2, hl2⟩ := ingest_ok csv C target db1 hC hh hpd hr hok
    refine ⟨db1, db2, h1, h2, by rw [hl1, hl2], ?_⟩
    rw [hl2]
    simp [indexedFrom_length]
  · refine ⟨_, _, zones_ok csv target db hh, zones_ok csv target _ hh, ?_, ?_⟩
    · rw [dbLookup_dbSet_self, dbLookup_dbSet_self]
    · rw [dbLookup_dbSet_self]
      simp [indexedFrom_length]

/-- C4: when some batch contains a non-numeric text literal in a column
whose declared type is numeric, reading that batch fails with a
SchemaMismatch error and no destination write happens for that batch: the
run aborts with the table holding exactly the rows of the earlier batches
(or the database untouched when the first batch is the bad one). -/
theorem C4_schema_mismatch (csv : Csv) (C : Nat) (target : String)
    (db : Database) (hC : 1 ≤ C) (hh : csv.header ≠ [])
    (hpd : PARSE_DATES.all csv.header.contains = true)
    (pre : List (List (List RawCell))) (bad : List (List RawCell))
    (post : List (List (List RawCell)))
    (hch : chunksOf C csv.rows = pre ++ bad :: post)
    (hpre : ∀ c ∈ pre, ∀ r ∈ c, rowOk csv.header r = true)
    (hbad : ∃ r ∈ bad, ∃ p ∈ List.zip csv.header r,
      (dtypeOf p.1).isNumeric = true ∧ p.2.isText = true) :
    ∃ db', ingest_data (some csv) C target db = .err .schemaMismatch db' ∧
      (pre = [] → db' = db) ∧
      (pre ≠ [] → dbLookup db' target =
        some ⟨"index" :: csv.header,
          indexedFrom 0 (csv.rows.take (pre.length * C))⟩) := by
  obtain ⟨r, hr, p, hp, hnum, htxt⟩ := hbad
  exact ingest_err_schema csv C target db hC hh hpd pre bad post hch hpre
    (chunk_all_false _ _ r hr (rowOk_false_of_text _ _ p hp hnum htxt))

/-- C5: with an unreachable source the run fails with a SourceUnavailable
error before any table creation and the destination database is left
completely unchanged — for both loaders (the trip loader validates the
chunk size first, hence the C ≥ 1 hypothesis). -/
theorem C5_source_unavailable (C : Nat) (target : String) (db : Database)
    (hC : 1 ≤ C) :
    ingest_data none C target db = .err .sourceUnavailable db ∧
    zones_run none target db = .err .sourceUnavailable db := by
  refine ⟨?_, rfl⟩
  simp [ingest_data, show ¬ (C < 1) by omega]

/-- C6: every appended batch inserts its rows in order, so a successful
run leaves the table's data rows (each written row minus its index cell)
exactly equal to the source rows in original order; with batch size 1 a
3-row source yields exactly 3 batches of one row each and a 3-row table. -/
theorem C6_order_preserved (csv : Csv) (C : Nat) (target : String)
    (db : Database) (hC : 1 ≤ C) (hh : csv.header ≠ [])
    (hpd : PARSE_DATES.all csv.header.contains = true) (hr : csv.rows ≠ [])
    (hok : ∀ r ∈ csv.rows, rowOk csv.header r = true) :
    ∃ db' t, ingest_data (some csv) C target db = .ok db' ∧
      dbLookup db' target = some t ∧
      t.rows.map List.tail = csv.rows ∧
      t.rows.length = csv.rows.length ∧
      (C = 1 → csv.rows.length = 3 →
        (chunksOf C csv.rows).map List.length = [1, 1, 1]) := by
  obtain ⟨db', h1, h2⟩ := ingest_ok csv C target db hC hh hpd hr hok
  refine ⟨db', _, h1, h2, indexedFrom_map_tail 0 csv.rows,
    indexedFrom_length 0 csv.rows, ?_⟩
  intro hC1 h3
  subst hC1
  rw [chunksOf_one]
  obtain ⟨a, b, c, habc⟩ := List.length_eq_three.mp h3
  rw [habc]
  rfl

/-- C7: a configured chunk size of zero fails the read parameter validation
before the source is even opened: the run aborts with an
InvalidConfiguration error, no batch is obtained and the database is
unchanged, whatever the source. -/
theorem C7_zero_chunksize (src : Option Csv) (target : String)
    (db : Database) :
    ingest_data src 0 target db = .err .invalidConfiguration db := rfl

/-- C8 counterexample: a zero-column source does not produce a
SchemaMismatch at the Schema Initializer — the read itself aborts the run
with an empty-data error before any batch exists (database unchanged). -/
theorem C8_counterexample :
    ingest_data (some ⟨[], [[]]⟩) 1 "t" [] =
      .err .emptyDataError [] ∧
    IngestError.emptyDataError ≠ IngestError.schemaMismatch := by
  exact ⟨rfl, by decide⟩

/-- C8 (amended): a source with zero columns aborts the run at the read
step with an empty-data (malformed-source class) error before any batch is
obtained: no table is created, nothing is appended, the database is left
unchanged, and there is no retry. -/
theorem C8_amended_zero_columns (csv : Csv) (C : Nat) (target : String)
    (db : Database) (hC : 1 ≤ C) (hh : csv.header = []) :
    ingest_data (some csv) C target db = .err .emptyDataError db := by
  simp [ingest_data, show ¬ (C < 1) by omega, hh]

/-- C9 counterexample: a source with a header but zero data rows does not
abort the run — the chunked reader yields an empty first frame, the run
succeeds, and the pre-existing table under the target name is dropped and
replaced by an empty table with the index column and the header's columns
(here replacing a table whose columns were `keep`). -/
theorem C9_counterexample :
    finalTable
        (ingest_data
          (some ⟨["tpep_pickup_datetime", "tpep_dropoff_datetime"], []⟩)
          1 "t" [("t", ⟨["keep"], [[RawCell.intLit 7]]⟩)])
        "t" =
      some ⟨["index", "tpep_pickup_datetime", "tpep_dropoff_datetime"], []⟩ ∧
    (⟨["index", "tpep_pickup_datetime", "tpep_dropoff_datetime"], []⟩ : Table) ≠
      ⟨["keep"], [[RawCell.intLit 7]]⟩ := by
  exact ⟨rfl, by decide⟩

/-- C9 (amended): for a source with a header but zero data rows the
chunked reader yields one empty first batch instead of raising, the run
succeeds with zero data rows appended, and any pre-existing table under
the target name is dropped and replaced by an empty table whose columns
are the index column followed by the header. -/
theorem C9_amended_empty_source (csv : Csv) (C : Nat) (target : String)
    (db : Database) (hC : 1 ≤ C) (hh : csv.header ≠ [])
    (hpd : PARSE_DATES.all csv.header.contains = true)
    (hr : csv.rows = []) :
    ∃ db', ingest_data (some csv) C target db = .ok db' ∧
      dbLookup db' target = some ⟨"index" :: csv.header, []⟩ := by
  have hne : ¬ (C < 1) := by omega
  have hpd2 : ¬ ¬ (PARSE_DATES.all csv.header.contains = true) := fun h => h hpd
  have hp : parseChunk csv.header 0 [] =
      .ok ⟨csv.header, [], []⟩ := by
    simp [parseChunk]
  refine ⟨dbSet (dbSet db target ⟨"index" :: csv.header, []⟩) target
      ⟨"index" :: csv.header, []⟩, ?_, dbLookup_dbSet_self _ _ _⟩
  simp only [ingest_data, if_neg hne, if_neg hh, if_neg hpd2, hr,
    firstAndRest_nil, hp, dfHead0, toSql, writtenColumns, writtenRows,
    List.zipWith_nil_left, dbLookup_dbSet_self, List.nil_append,
    eq_self_iff_true, if_true, appendLoop]

/-- C10: every written row carries the auto-generated index equal to its
zero-based position in the source CSV, and over the whole run those values
are exactly 0..R-1 — strictly increasing and pairwise distinct, a stable
global ordering key. -/
theorem C10_index_values (csv : Csv) (C : Nat) (target : String)
    (db : Database) (hC : 1 ≤ C) (hh : csv.header ≠ [])
    (hpd : PARSE_DATES.all csv.header.contains = true) (hr : csv.rows ≠ [])
    (hok : ∀ r ∈ csv.rows, rowOk csv.header r = true) :
    ∃ db' t, ingest_data (some csv) C target db = .ok db' ∧
      dbLookup db' target = some t ∧
      t.rows.filterMap rowIndexVal =
        (List.range csv.rows.length).map Int.ofNat ∧
      (t.rows.filterMap rowIndexVal).Pairwise (· < ·) ∧
      (t.rows.filterMap rowIndexVal).Nodup := by
  obtain ⟨db', h1, h2⟩ := ingest_ok csv C target db hC hh hpd hr hok
  have hfm : (indexedFrom 0 csv.rows).filterMap rowIndexVal =
      (List.range csv.rows.length).map Int.ofNat := by
    rw [indexedFrom_filterMap]
    apply List.map_congr_left
    intro i hi
    simp
  have hpw : ((List.range csv.rows.length).map Int.ofNat).Pairwise (· < ·) := by
    rw [List.pairwise_map]
    exact (List.pairwise_lt_range csv.rows.length).imp
      (fun h => Int.ofNat_lt.mpr h)
  refine ⟨db', _, h1, h2, hfm, ?_, ?_⟩
  · rw [hfm]
    exact hpw
  · rw [hfm]
    exact hpw.imp (fun h => ne_of_lt h)

/-! ### Concrete instantiations -/

/-- A small concrete trip-style CSV (valid for the declared schema). -/
def sampleCsv : Csv :=
  ⟨["tpep_pickup_datetime", "tpep_dropoff_datetime", "trip_distance"],
   [[RawCell.empty, RawCell.empty, RawCell.floatLit 1 true],
    [RawCell.empty, RawCell.empty, RawCell.intLit 2],
    [RawCell.empty, RawCell.empty, RawCell.floatLit 3 false]]⟩

/-- A concrete trip-style CSV whose second row holds free text in the
numeric `trip_distance` column. -/
def badCsv : Csv :=
  ⟨["tpep_pickup_datetime", "tpep_dropoff_datetime", "trip_distance"],
   [[RawCell.empty, RawCell.empty, RawCell.intLit 1],
    [RawCell.empty, RawCell.empty, RawCell.textLit "abc"]]⟩

/-- Witness for C1 at a concrete 3-row source with chunk size 2. -/
theorem C1_chunk_counts_witness :
    (chunksOf 2 sampleCsv.rows).length = (sampleCsv.rows.length + 2 - 1) / 2 ∧
    (∀ i, i + 1 < (chunksOf 2 sampleCsv.rows).length →
      ((chunksOf 2 sampleCsv.rows).getD i []).length = 2) ∧
    ((chunksOf 2 sampleCsv.rows).map List.length).sum = sampleCsv.rows.length ∧
    (sampleCsv.rows.length = 250000 → 2 = 100000 →
      (chunksOf 2 sampleCsv.rows).map List.length = [100000, 100000, 50000]) ∧
    (∀ (csv : Csv) (target : String) (db : Database),
      csv.rows = sampleCsv.rows → csv.header ≠ [] →
      PARSE_DATES.all csv.header.contains = true →
      (∀ r ∈ sampleCsv.rows, rowOk csv.header r = true) →
      ∃ db' t, ingest_data (some csv) 2 target db = .ok db' ∧
        dbLookup db' target = some t ∧
        t.rows.length = sampleCsv.rows.length) :=
  C1_chunk_counts sampleCsv.rows 2 (by decide) (by decide)

/-- Witness for the amended C2 at a concrete source. -/
theorem C2_amended_columns_witness :
    (∃ db' t, ingest_data (some sampleCsv) 2 "t" [] = .ok db' ∧
      dbLookup db' "t" = some t ∧ t.columns = "index" :: sampleCsv.header) ∧
    (∃ db1 t1, zones_run (some sampleCsv) "t" [] = .ok db1 ∧
      dbLookup db1 "t" = some t1 ∧ t1.columns = "index" :: sampleCsv.header) :=
  C2_amended_columns sampleCsv 2 "t" [] (by decide) (by decide) (by decide)
    (by decide) (by decide)

/-- Witness for C3 at a concrete source run twice into an empty database. -/
theorem C3_rerun_replace_witness :
    (∃ db1 db2, ingest_data (some sampleCsv) 2 "t" [] = .ok db1 ∧
      ingest_data (some sampleCsv) 2 "t" db1 = .ok db2 ∧
      dbLookup db2 "t" = dbLookup db1 "t" ∧
      (dbLookup db2 "t").map (fun t => t.rows.length) =
        some sampleCsv.rows.length) ∧
    (∃ db1 db2, zones_run (some sampleCsv) "t" [] = .ok db1 ∧
      zones_run (some sampleCsv) "t" db1 = .ok db2 ∧
      dbLookup db2 "t" = dbLookup db1 "t" ∧
      (dbLookup db2 "t").map (fun t => t.rows.length) =
        some sampleCsv.rows.length) :=
  C3_rerun_replace sampleCsv 2 "t" [] (by decide) (by decide) (by decide)
    (by decide) (by decide)

/-- Witness for C4: the second one-row batch of `badCsv` holds text in the
numeric `trip_distance` column; the run aborts with SchemaMismatch after
writing only the first batch. -/
theorem C4_schema_mismatch_witness :
    ∃ db', ingest_data (some badCsv) 1 "t" [] = .err .schemaMismatch db' ∧
      (([[[RawCell.empty, RawCell.empty, RawCell.intLit 1]]] :
          List (List (List RawCell))) = [] → db' = []) ∧
      (([[[RawCell.empty, RawCell.empty, RawCell.intLit 1]]] :
          List (List (List RawCell))) ≠ [] →
        dbLookup db' "t" =
          some ⟨"index" :: badCsv.header,
            indexedFrom 0 (badCsv.rows.take
              (([[[RawCell.empty, RawCell.empty, RawCell.intLit 1]]] :
                List (List (List RawCell))).length * 1))⟩) :=
  C4_schema_mismatch badCsv 1 "t" [] (by decide) (by decide) (by decide)
    [[[RawCell.empty, RawCell.empty, RawCell.intLit 1]]]
    [[RawCell.empty, RawCell.empty, RawCell.textLit "abc"]] []
    (by decide) (by decide) (by decide)

/-- Witness for C5: unreachable source, database holding a table already —
it is left untouched. -/
theorem C5_source_unavailable_witness :
    ingest_data none 1 "t" [("t", ⟨["x"], []⟩)] =
      .err .sourceUnavailable [("t", ⟨["x"], []⟩)] ∧
    zones_run none "t" [("t", ⟨["x"], []⟩)] =
      .err .sourceUnavailable [("t", ⟨["x"], []⟩)] :=
  C5_source_unavailable 1 "t" [("t", ⟨["x"], []⟩)] (by decide)

/-- Witness for C6 at batch size 1 and the 3-row sample source. -/
theorem C6_order_preserved_witness :
    ∃ db' t, ingest_data (some sampleCsv) 1 "t" [] = .ok db' ∧
      dbLookup db' "t" = some t ∧
      t.rows.map List.tail = sampleCsv.rows ∧
      t.rows.length = sampleCsv.rows.length ∧
      (1 = 1 → sampleCsv.rows.length = 3 →
        (chunksOf 1 sampleCsv.rows).map List.length = [1, 1, 1]) :=
  C6_order_preserved sampleCsv 1 "t" [] (by decide) (by decide) (by decide)
    (by decide) (by decide)

/-- Witness for the amended C8 at a concrete zero-column source. -/
theorem C8_amended_zero_columns_witness :
    ingest_data (some ⟨[], [[], []]⟩) 1 "t" [] = .err .emptyDataError [] :=
  C8_amended_zero_columns ⟨[], [[], []]⟩ 1 "t" [] (by decide) rfl

/-- Witness for the amended C9: header-only source, the pre-existing table
under the target name being replaced by the empty schema table. -/
theorem C9_amended_empty_source_witness :
    ∃ db', ingest_data
        (some ⟨["tpep_pickup_datetime", "tpep_dropoff_datetime"], []⟩) 2 "t"
        [("t", ⟨["old"], [[RawCell.intLit 9]]⟩), ("u", ⟨["u1"], []⟩)] =
        .ok db' ∧
      dbLookup db' "t" =
        some ⟨["index", "tpep_pickup_datetime", "tpep_dropoff_datetime"], []⟩ :=
  C9_amended_empty_source
    ⟨["tpep_pickup_datetime", "tpep_dropoff_datetime"], []⟩ 2 "t"
    [("t", ⟨["old"], [[RawCell.intLit 9]]⟩), ("u", ⟨["u1"], []⟩)]
    (by decide) (by decide) (by decide) rfl

/-- Witness for C10 at the 3-row sample source with chunk size 2. -/
theorem C10_index_values_witness :
    ∃ db' t, ingest_data (some sampleCsv) 2 "t" [] = .ok db' ∧
      dbLookup db' "t" = some t ∧
      t.rows.filterMap rowIndexVal =
        (List.range sampleCsv.rows.length).map Int.ofNat ∧
      (t.rows.filterMap rowIndexVal).Pairwise (· < ·) ∧
      (t.rows.filterMap rowIndexVal).Nodup :=
  C10_index_values sampleCsv 2 "t" [] (by decide) (by decide) (by decide)
    (by decide) (by decide)
